import Mathlib

/-!
Verification of the review-orchestration pipeline of `code-review-action`
(`src/ai-review-agent.ts`, `src/utils.ts`, `src/index.ts`), shallowly embedded
in Lean.  Pure helpers are translated as Lean functions; the LangGraph state
machine is translated as a node-step function plus a routing function; the two
I/O collaborators (the GitHub client and the LLM client) and the platform
`JSON.parse` are abstracted as oracle fields of an `Env` record, each holding
the outcome of the single call the pipeline makes to it.
-/

namespace CodeReviewAction

/-! ### Characters used by the matchers and the JSON extractor -/

/-- The character `U+007B` (left curly bracket). -/
def lbrace : Char := Char.ofNat 123

/-- The character `U+007D` (right curly bracket). -/
def rbrace : Char := Char.ofNat 125

/-- JavaScript line terminators, the characters NOT matched by an unescaped
`.` in a JS regular expression without the `s` flag: LF, CR, LS, PS. -/
def isLineTerm (c : Char) : Bool :=
  c = Char.ofNat 10 || c = Char.ofNat 13 || c = Char.ofNat 0x2028 || c = Char.ofNat 0x2029

/-! ### Glob pattern matching

`GitHubAIReviewAgent.matchesPatterns` (ai-review-agent.ts, lines 238-248)
converts each glob pattern to a JS regex by the textual replacements
`.` -> `\.`, then `*` -> `.*`, then `?` -> `.`, wraps it as `^...$`
and tests the filename against it.

The private helper `matchesPattern` in utils.ts (lines 30-39, unused by the
pipeline) instead performs `**` -> `.*`, then `*` -> `[^/]*`, then `?` -> `.`;
because the replacements are sequential string rewrites, the `*` inserted by
the first rewrite is itself rewritten by the second, so `**` effectively
becomes `.[^/]*`.

We embed the resulting anchored regexes as token lists.  The embedding is
faithful for patterns whose characters include no regex metacharacter other
than `.`, `*`, `?` (the source escapes only the dot, so a pattern containing
`+`, `(`, `[`, `\`, `^`, `$`, `|`, `)`, `]` would be passed through to the
regex engine unescaped; no such pattern appears in the claims). -/

/-- One token of the anchored regex produced from a glob pattern:
a literal character, `.` (any one non-line-terminator character),
`.*` (any run of non-line-terminator characters), or `[^/]*`
(any run of non-slash characters). -/
inductive GlobTok where
  | lit (c : Char)
  | anyOne
  | starAny
  | starNotSlash
deriving DecidableEq

/-- Tokens of the regex built by `matchesPatterns` in ai-review-agent.ts:
`.` is escaped to a literal dot, `*` becomes `.*`, `?` becomes `.`,
every other character stands for itself. -/
def agentTokens (p : List Char) : List GlobTok :=
  p.map fun c =>
    if c = '*' then GlobTok.starAny
    else if c = '?' then GlobTok.anyOne
    else GlobTok.lit c

/-- First rewrite of utils.ts `matchesPattern`: each (non-overlapping,
left-to-right) occurrence of `**` is replaced by the two characters `.*`. -/
def repDoubleStar : List Char → List Char
  | '*' :: '*' :: rest => '.' :: '*' :: repDoubleStar rest
  | c :: rest => c :: repDoubleStar rest
  | [] => []

/-- Tokens of the regex built by `matchesPattern` in utils.ts: after the `**`
rewrite, `*` becomes `[^/]*`, `?` becomes `.`, and the dot — which utils.ts
does not escape — is the regex any-character.  Other characters stand for
themselves. -/
def utilsTokens (p : List Char) : List GlobTok :=
  (repDoubleStar p).map fun c =>
    if c = '*' then GlobTok.starNotSlash
    else if c = '?' then GlobTok.anyOne
    else if c = '.' then GlobTok.anyOne
    else GlobTok.lit c

/-- Backtracking loop for a star token: either match the rest of the regex
(`k`) on the current suffix, or — when the head character is admitted by the
star's character test `ok` — consume it and try again. -/
def starLoop (k : List Char → Bool) (ok : Char → Bool) : List Char → Bool
  | [] => k []
  | x :: xs => k (x :: xs) || (ok x && starLoop k ok xs)

/-- Anchored matching of a token list against a character list: the whole
string must be consumed (the source regexes are wrapped in `^...$`). -/
def globMatch : List GlobTok → List Char → Bool
  | [], s => s.isEmpty
  | GlobTok.lit c :: ts, s =>
      match s with
      | [] => false
      | x :: xs => c = x && globMatch ts xs
  | GlobTok.anyOne :: ts, s =>
      match s with
      | [] => false
      | x :: xs => !isLineTerm x && globMatch ts xs
  | GlobTok.starAny :: ts, s => starLoop (globMatch ts) (fun x => !isLineTerm x) s
  | GlobTok.starNotSlash :: ts, s => starLoop (globMatch ts) (fun x => x ≠ '/') s

/-- `GitHubAIReviewAgent.matchesPatterns(filename, patterns)`:
true when the filename fully matches the regex of at least one pattern. -/
def matchesPatterns (filename : String) (patterns : List String) : Bool :=
  patterns.any fun pattern => globMatch (agentTokens pattern.data) filename.data

/-- The unused matcher `matchesPattern(filename, pattern)` of utils.ts. -/
def utilsMatchesPattern (filename : String) (pattern : String) : Bool :=
  globMatch (utilsTokens pattern.data) filename.data

/-! ### File relevance filter

`shouldIncludeFile` (ai-review-agent.ts, lines 253-269) and the predicate
inside `filterRelevantFilesNode` (lines 314-327). -/

/-- One changed file as returned by the GitHub file listing
(interface `GitHubFile`). -/
structure GitHubFile where
  filename : String
  additions : Nat
  deletions : Nat
  patch : Option String
  status : String
deriving DecidableEq

/-- The configuration fields of `GitHubAIReviewAgent` that the pipeline
reads: the glob pattern lists (each `string[] | undefined` in the source,
hence `Option`) and the post-comment flag. -/
structure AgentCfg where
  filePatterns : Option (List String)
  excludePatterns : Option (List String)
  postComment : Bool

/-- The default extension allow-list applied when no include patterns are
configured: the source tests the filename against the regex
`/\.(js|jsx|ts|tsx|vue|svelte|php|blade\.php|py|json|yml)$/`, i.e. asks
whether the filename ends in a dot followed by one of the alternatives. -/
def defaultExtensionTest (filename : String) : Bool :=
  [".js", ".jsx", ".ts", ".tsx", ".vue", ".svelte", ".php", ".blade.php",
   ".py", ".json", ".yml"].any
    fun ext => ext.data.isSuffixOf filename.data

/-- `GitHubAIReviewAgent.shouldIncludeFile`: a file matching a configured
exclude pattern is dropped; else if include patterns are configured the file
must match one; else the default extension allow-list decides. -/
def shouldIncludeFile (cfg : AgentCfg) (filename : String) : Bool :=
  if (match cfg.excludePatterns with
      | some ex => 0 < ex.length && matchesPatterns filename ex
      | none => false)
  then false
  else
    match cfg.filePatterns with
    | some ps =>
        if 0 < ps.length then matchesPatterns filename ps
        else defaultExtensionTest filename
    | none => defaultExtensionTest filename

/-- The per-file predicate of `filterRelevantFilesNode`: a file whose status
is neither `added` nor `modified` is kept exactly when its status is
`renamed`; otherwise the pattern filter decides. -/
def keepFile (cfg : AgentCfg) (file : GitHubFile) : Bool :=
  if !(["added", "modified"].contains file.status) then
    file.status = "renamed"
  else
    shouldIncludeFile cfg file.filename

/-- The list filtering performed by `filterRelevantFilesNode`
(`state.prData.files.filter(...)`). -/
def filterRelevant (cfg : AgentCfg) (files : List GitHubFile) : List GitHubFile :=
  files.filter (keepFile cfg)

/-- An agent configured with no include and no exclude patterns. -/
def cfgNoPatterns : AgentCfg :=
  { filePatterns := none, excludePatterns := none, postComment := true }

/-! ### Response parsing and schema validation

`parseAIResponse` (ai-review-agent.ts, lines 508-526) extracts the substring
matched by the regex `/\x7b[\s\S]*\x7d/` (first `\x7b` through last `\x7d`),
feeds it to the platform `JSON.parse` — abstracted here as an oracle
`String → Option Json` — and validates the value against `AIReviewSchema`
(lines 25-32); any failure yields the fixed fallback record. -/

/-- A parsed JSON value.  Numbers are modelled as rationals, which represent
every JSON numeral appearing in this development exactly. -/
inductive Json where
  | str (s : String)
  | num (q : Rat)
  | jbool (b : Bool)
  | null
  | arr (xs : List Json)
  | obj (fields : List (String × Json))

/-- One finding, after validation by `ReviewFindingSchema`.  Enum fields are
kept as the validated strings, as `zod` does. -/
structure ReviewFinding where
  category : String
  severity : String
  file : String
  line : Option Rat
  issue : String
  suggestion : String
deriving DecidableEq

/-- A review validated by `AIReviewSchema` (or built by the fallback). -/
structure AIReview where
  overall_score : Rat
  recommendation : String
  summary : String
  detailed_findings : List ReviewFinding
  positive_aspects : List String
  areas_for_improvement : List String
deriving DecidableEq

/-- Field lookup in a JSON object (objects in this development carry no
duplicate keys, so first-match lookup agrees with `JSON.parse`). -/
def getField (fields : List (String × Json)) (k : String) : Option Json :=
  (fields.find? fun p => p.1 = k).map (·.2)

/-- Validation of `z.string()`. -/
def asString : Json → Option String
  | Json.str s => some s
  | _ => none

/-- Validation of `z.number()`. -/
def asNumber : Json → Option Rat
  | Json.num q => some q
  | _ => none

/-- Validation of `z.array(...)`, shape only. -/
def asArray : Json → Option (List Json)
  | Json.arr xs => some xs
  | _ => none

/-- Validation of `z.enum(vals)`: a string that is one of the allowed
values. -/
def parseEnumStr (vals : List String) : Json → Option String
  | Json.str s => if s ∈ vals then some s else none
  | _ => none

/-- The three allowed values of the `recommendation` enum. -/
def recommendationValues : List String := ["POSITIVE", "NEGATIVE", "NEEDS_CHANGES"]

/-- The four allowed values of the finding `category` enum. -/
def categoryValues : List String := ["QUALITY", "SECURITY", "FUNCTIONALITY", "MAINTAINABILITY"]

/-- The three allowed values of the finding `severity` enum. -/
def severityValues : List String := ["HIGH", "MEDIUM", "LOW"]

/-- Validation of `z.number().min(1).max(10)` for `overall_score`. -/
def parseScore : Json → Option Rat
  | Json.num q => if 1 ≤ q ∧ q ≤ 10 then some q else none
  | _ => none

/-- Validation of the optional `line` field (`z.number().optional()`):
an absent field is accepted as `none`; a present field must be a number. -/
def parseOptLine (fields : List (String × Json)) : Option (Option Rat) :=
  match getField fields "line" with
  | none => some none
  | some j => (asNumber j).map some

/-- Validation of one finding against `ReviewFindingSchema`. -/
def parseFinding (j : Json) : Option ReviewFinding :=
  match j with
  | Json.obj fields => do
      let category ← getField fields "category" >>= parseEnumStr categoryValues
      let severity ← getField fields "severity" >>= parseEnumStr severityValues
      let file ← getField fields "file" >>= asString
      let line ← parseOptLine fields
      let issue ← getField fields "issue" >>= asString
      let suggestion ← getField fields "suggestion" >>= asString
      some { category := category, severity := severity, file := file,
             line := line, issue := issue, suggestion := suggestion }
  | _ => none

/-- Validation of a parsed value against `AIReviewSchema`
(`AIReviewSchema.parse`, returning `none` where `zod` would throw). -/
def validateAIReview (j : Json) : Option AIReview :=
  match j with
  | Json.obj fields => do
      let overall_score ← getField fields "overall_score" >>= parseScore
      let recommendation ← getField fields "recommendation" >>= parseEnumStr recommendationValues
      let summary ← getField fields "summary" >>= asString
      let findingsJson ← getField fields "detailed_findings" >>= asArray
      let detailed_findings ← findingsJson.mapM parseFinding
      let positivesJson ← getField fields "positive_aspects" >>= asArray
      let positive_aspects ← positivesJson.mapM asString
      let areasJson ← getField fields "areas_for_improvement" >>= asArray
      let areas_for_improvement ← areasJson.mapM asString
      some { overall_score := overall_score, recommendation := recommendation,
             summary := summary, detailed_findings := detailed_findings,
             positive_aspects := positive_aspects,
             areas_for_improvement := areas_for_improvement }
  | _ => none

/-- Index of the first occurrence of `c` in the list, if any. -/
def firstIdx (c : Char) : List Char → Option Nat
  | [] => none
  | x :: xs => if x = c then some 0 else (firstIdx c xs).map (· + 1)

/-- Index of the last occurrence of `c` in `l`, if any. -/
def lastIdx (c : Char) (l : List Char) : Option Nat :=
  (firstIdx c l.reverse).map fun k => l.length - 1 - k

/-- The substring matched by `txt.match(/\x7b[\s\S]*\x7d/)`: from the first
left brace through the last right brace, provided the latter comes after the
former; otherwise the regex fails to match. -/
def extractBraced (txt : String) : Option String :=
  match firstIdx lbrace txt.data, lastIdx rbrace txt.data with
  | some i, some j =>
      if i < j then some (String.mk ((txt.data.drop i).take (j - i + 1)))
      else none
  | _, _ => none

/-- The fixed fallback review returned when extraction, parsing, or schema
validation fails. -/
def fallbackReview : AIReview :=
  { overall_score := 5
    recommendation := "NEEDS_CHANGES"
    summary := "The AI did not return valid JSON. Manual review required."
    detailed_findings := []
    positive_aspects := []
    areas_for_improvement := ["Manual review required"] }

/-- `GitHubAIReviewAgent.parseAIResponse`, with `JSON.parse` abstracted as
the oracle `jp`. -/
def parseAIResponse (jp : String → Option Json) (txt : String) : AIReview :=
  match extractBraced txt with
  | none => fallbackReview
  | some sub =>
      match jp sub with
      | none => fallbackReview
      | some j =>
          match validateAIReview j with
          | none => fallbackReview
          | some r => r

/-! ### Stack detection -/

/-- The closed enumeration of stack tags (`Stack` in detect-stack.d.ts). -/
inductive Stack where
  | laravel
  | wordpress
  | django
  | flask
  | react
  | next
  | vue
  | nuxt
  | generic
deriving DecidableEq

/-- The detector's input (`GitHubFileLite` in detect-stack.d.ts). -/
structure GitHubFileLite where
  filename : String
  patch : Option String
deriving DecidableEq

/-- Whether `needle` occurs contiguously inside the second list. -/
def isInfixChars (needle : List Char) : List Char → Bool
  | [] => needle.isPrefixOf []
  | x :: xs => needle.isPrefixOf (x :: xs) || isInfixChars needle xs

/-- Whether the file's patch text contains the given substring. -/
def patchContains (f : GitHubFileLite) (needle : String) : Bool :=
  isInfixChars needle.data (f.patch.getD "").data

/-- Modelled from the spec: the repository imports `./detect-stack`, whose
source file is not present (only its type declaration `detect-stack.d.ts`
and its caller `createAnalysisPrompt` are); this definition follows the
ordered first-match-wins rules of spec section 4.1: (1) a PHP dependency
manifest referencing the framework package, (2) a CMS content directory,
(3) a Python entry-point or settings file, (4) a Python file importing the
micro-framework, (5) a JS/TS package manifest whose patch declares a
framework dependency, meta-framework checked before its base framework
(nuxt before vue, next before react), (6) a framework-specific file
extension, (7) otherwise generic. -/
def detectStack (files : List GitHubFileLite) : Stack :=
  if files.any fun f =>
      f.filename.data = "composer.json".data && patchContains f "laravel/framework" then
    Stack.laravel
  else if files.any fun f => isInfixChars "wp-content/".data f.filename.data then
    Stack.wordpress
  else if files.any fun f =>
      "manage.py".data.isSuffixOf f.filename.data ||
        "settings.py".data.isSuffixOf f.filename.data then
    Stack.django
  else if files.any fun f =>
      ".py".data.isSuffixOf f.filename.data && patchContains f "flask" then
    Stack.flask
  else if files.any fun f =>
      "package.json".data.isSuffixOf f.filename.data && patchContains f "\"nuxt\"" then
    Stack.nuxt
  else if files.any fun f =>
      "package.json".data.isSuffixOf f.filename.data && patchContains f "\"next\"" then
    Stack.next
  else if files.any fun f =>
      "package.json".data.isSuffixOf f.filename.data && patchContains f "\"vue\"" then
    Stack.vue
  else if files.any fun f =>
      "package.json".data.isSuffixOf f.filename.data && patchContains f "\"react\"" then
    Stack.react
  else if files.any fun f => ".vue".data.isSuffixOf f.filename.data then
    Stack.vue
  else if files.any fun f =>
      ".jsx".data.isSuffixOf f.filename.data || ".tsx".data.isSuffixOf f.filename.data then
    Stack.react
  else
    Stack.generic

/-! ### The pipeline state machine

The LangGraph graph of `createGraph` (ai-review-agent.ts, lines 158-231):
six nodes, conditional edges after the first four routing to the error
handler on `error`, to `END` on `completed`, and to the next node otherwise;
`postReview` and `handleError` route unconditionally to `END`.  Node results
are `Partial<AgentState>` records merged into the state, embedded here as
functional record updates. -/

/-- The pull-request data stored by the fetch node. -/
structure PullRequestData where
  title : String
  body : String
  number : Nat
  files : List GitHubFile
deriving DecidableEq

/-- The mutable run state (`AgentState`). -/
structure AgentState where
  owner : String
  repo : String
  pullNumber : Nat
  prData : Option PullRequestData
  relevantFiles : Option (List GitHubFile)
  aiReview : Option AIReview
  reviewComment : Option String
  error : Option String
  completed : Bool
deriving DecidableEq

/-- Oracles for the pipeline's external collaborators, each holding the
outcome of the single call the run makes to it: the GitHub fetch
(`pulls.get` + `pulls.listFiles`), the one LLM invocation, the platform
`JSON.parse`, and the review-comment post (`pulls.createReview`).  An
`Except.error` value is the message of the exception the call threw. -/
structure Env where
  fetch : Except String PullRequestData
  llm : Except String String
  jsonParse : String → Option Json
  post : Except String Unit

/-- The six graph nodes plus the `END` sentinel. -/
inductive Node where
  | fetchPR
  | filterFiles
  | analyzeCode
  | formatReview
  | postReview
  | handleError
  | endNode
deriving DecidableEq

/-- Node `fetchPR` (`fetchPullRequestNode`): store the fetched PR data, or
the wrapped error message of a failed fetch. -/
def fetchPullRequestNode (env : Env) (s : AgentState) : AgentState :=
  match env.fetch with
  | Except.ok pr => { s with prData := some pr }
  | Except.error msg =>
      { s with error := some ("Gabim gjatë marrjes së PR: " ++ msg) }

/-- Node `filterFiles` (`filterRelevantFilesNode`): error when the PR data is
missing; mark the run completed when the filtered list is empty; otherwise
store the filtered list. -/
def filterRelevantFilesNode (cfg : AgentCfg) (s : AgentState) : AgentState :=
  match s.prData with
  | none => { s with error := some "PR data missing" }
  | some pr =>
      let relevantFiles := filterRelevant cfg pr.files
      if relevantFiles.length = 0 then { s with completed := true }
      else { s with relevantFiles := some relevantFiles }

/-- Node `analyzeCode` (`analyzeCodeNode`): error when prerequisites are
missing; invoke the LLM once and store the parsed review; a throwing
invocation becomes a wrapped error. -/
def analyzeCodeNode (env : Env) (s : AgentState) : AgentState :=
  match s.relevantFiles, s.prData with
  | some _, some _ =>
      (match env.llm with
       | Except.ok text => { s with aiReview := some (parseAIResponse env.jsonParse text) }
       | Except.error msg => { s with error := some ("Gabim gjatë analizës: " ++ msg) })
  | _, _ => { s with error := some "Missing data for analysis" }

/-- Rendering of a score or line number in the report.  The source
interpolates a JS number; integral values (the only ones the claims touch)
render identically, non-integral ones are approximated as fractions. -/
def ratText (q : Rat) : String :=
  if q.den = 1 then toString q.num else toString q.num ++ "/" ++ toString q.den

/-- `formatReviewComment` (ai-review-agent.ts, lines 528-570): the Markdown
report, a pure projection of the structured review. -/
def formatReviewComment (r : AIReview) : String :=
  let emoji :=
    if r.recommendation = "POSITIVE" then "✅"
    else if r.recommendation = "NEGATIVE" then "❌"
    else "⚠️"
  "## " ++ emoji ++ " AI Code Review Report\n\n### Rating: " ++
    ratText r.overall_score ++ "/10  \n**Recommendation:** " ++
    r.recommendation ++ "\n\n### Summary\n" ++ r.summary ++ "\n\n" ++
    (if r.positive_aspects.length ≠ 0 then
      "### ✨ Positive Aspects\n" ++
        String.intercalate "\n" (r.positive_aspects.map fun a => "- " ++ a)
     else "") ++ "\n\n" ++
    (if r.detailed_findings.length ≠ 0 then
      "### 🔍 Findings\n" ++
        String.intercalate "\n\n" (r.detailed_findings.map fun f =>
          "**" ++ f.severity ++ "** – `" ++ f.file ++ "`" ++
            (match f.line with
             | some q => if q = 0 then "" else " (Line " ++ ratText q ++ ")"
             | none => "") ++
            "\n- **" ++ f.category ++ "**\n- Issue: " ++ f.issue ++
            "\n- Suggestion: " ++ f.suggestion)
     else "") ++ "\n\n" ++
    (if r.areas_for_improvement.length ≠ 0 then
      "### 📈 Areas for Improvement\n " ++
        String.intercalate "\n" (r.areas_for_improvement.map fun a => "- " ++ a)
     else "") ++
    "\n\n---\n*🤖 Generated by AI Code Review Agent*  \n*⚠️ Please perform a manual review regardless of this recommendation*\n"

/-- Node `formatReview` (`formatReviewNode`): error when the review is
missing; otherwise store the rendered report. -/
def formatReviewNode (s : AgentState) : AgentState :=
  match s.aiReview with
  | none => { s with error := some "AI review data missing" }
  | some r => { s with reviewComment := some (formatReviewComment r) }

/-- Node `postReview` (`postReviewNode`): error when the comment is missing
(the source's truthiness test also rejects an empty string); post it when the
flag is set, turning a failed post into a wrapped error; mark completed. -/
def postReviewNode (cfg : AgentCfg) (env : Env) (s : AgentState) : AgentState :=
  match s.reviewComment with
  | none => { s with error := some "Review comment missing" }
  | some c =>
      if c = "" then { s with error := some "Review comment missing" }
      else if cfg.postComment then
        match env.post with
        | Except.ok _ => { s with completed := true }
        | Except.error msg => { s with error := some ("Gabim gjatë postimit: " ++ msg) }
      else { s with completed := true }

/-- Node `handleError` (`handleErrorNode`): terminal bookkeeping only — it
logs and returns `\x7b completed: true \x7d`, preserving the error. -/
def handleErrorNode (s : AgentState) : AgentState :=
  { s with completed := true }

/-- Dispatch of one node's work. -/
def runNode (cfg : AgentCfg) (env : Env) (n : Node) (s : AgentState) : AgentState :=
  match n with
  | Node.fetchPR => fetchPullRequestNode env s
  | Node.filterFiles => filterRelevantFilesNode cfg s
  | Node.analyzeCode => analyzeCodeNode env s
  | Node.formatReview => formatReviewNode s
  | Node.postReview => postReviewNode cfg env s
  | Node.handleError => handleErrorNode s
  | Node.endNode => s

/-- The conditional edges of `createGraph`, applied to the state produced by
the node just run. -/
def route (n : Node) (s : AgentState) : Node :=
  match n with
  | Node.fetchPR =>
      if s.error.isSome then Node.handleError
      else if s.completed then Node.endNode
      else Node.filterFiles
  | Node.filterFiles =>
      if s.error.isSome then Node.handleError
      else if s.completed then Node.endNode
      else Node.analyzeCode
  | Node.analyzeCode =>
      if s.error.isSome then Node.handleError
      else if s.completed then Node.endNode
      else Node.formatReview
  | Node.formatReview =>
      if s.error.isSome then Node.handleError
      else if s.completed then Node.endNode
      else Node.postReview
  | Node.postReview => Node.endNode
  | Node.handleError => Node.endNode
  | Node.endNode => Node.endNode

/-- Execution of the compiled graph from a given node.  The fuel argument is
a bound on the number of node executions; the graph's routing strictly
advances along the node order, so `7` units always reach `END`. -/
def runFromFuel (cfg : AgentCfg) (env : Env) : Nat → Node → AgentState → AgentState
  | 0, _, s => s
  | Nat.succ fuel, n, s =>
      if n = Node.endNode then s
      else
        let t := runNode cfg env n s
        runFromFuel cfg env fuel (route n t) t

/-- `graph.invoke(initialState)`: run from the entry edge
`__start__ → fetchPR` to `END`. -/
def invokeGraph (cfg : AgentCfg) (env : Env) (s : AgentState) : AgentState :=
  runFromFuel cfg env 7 Node.fetchPR s

/-- The initial state built by `reviewPullRequest`. -/
def initialState (owner repo : String) (pullNumber : Nat) : AgentState :=
  { owner := owner, repo := repo, pullNumber := pullNumber,
    prData := none, relevantFiles := none, aiReview := none,
    reviewComment := none, error := none, completed := false }

/-- The public result record (`ReviewResult`), optional fields as
`Option`. -/
structure ReviewResult where
  success : Bool
  recommendation : Option String
  score : Option Rat
  issuesCount : Option Nat
  summary : Option String
  error : Option String
deriving DecidableEq

/-- `GitHubAIReviewAgent.reviewPullRequest`: run the graph and project the
terminal state into the public result.  On an error, only `success` and
`error` are set; otherwise `success` is true and `issuesCount` is
`aiReview?.detailed_findings.length ?? 0`. -/
def reviewPullRequest (cfg : AgentCfg) (env : Env)
    (owner repo : String) (pullNumber : Nat) : ReviewResult :=
  let finalState := invokeGraph cfg env (initialState owner repo pullNumber)
  match finalState.error with
  | some e =>
      { success := false, recommendation := none, score := none,
        issuesCount := none, summary := none, error := some e }
  | none =>
      { success := true
        recommendation := finalState.aiReview.map (·.recommendation)
        score := finalState.aiReview.map (·.overall_score)
        issuesCount := some (match finalState.aiReview with
          | some r => r.detailed_findings.length
          | none => 0)
        summary := finalState.aiReview.map (·.summary)
        error := none }

/-! ### Concrete fixtures used by witnesses and counterexamples -/

/-- A docs-only pull request: the single changed file is `README.md`. -/
def prReadmeOnly : PullRequestData :=
  { title := "docs", body := "", number := 1,
    files := [{ filename := "README.md", additions := 1, deletions := 0,
                patch := some "p", status := "modified" }] }

/-- An environment whose fetch succeeds with the docs-only PR; the later
collaborators are never reached on this run. -/
def envReadmeOnly : Env :=
  { fetch := Except.ok prReadmeOnly
    llm := Except.error "unreached"
    jsonParse := fun _ => none
    post := Except.ok () }

/-- An environment whose fetch throws a transport error. -/
def envFetchError : Env :=
  { fetch := Except.error "boom", llm := Except.error "unreached",
    jsonParse := fun _ => none, post := Except.ok () }

/-- A parsed model response satisfying the schema: score 8, POSITIVE, one
finding. -/
def goodJson : Json := Json.obj
  [("overall_score", Json.num 8),
   ("recommendation", Json.str "POSITIVE"),
   ("summary", Json.str "Nice"),
   ("detailed_findings", Json.arr
     [Json.obj [("category", Json.str "QUALITY"), ("severity", Json.str "LOW"),
                ("file", Json.str "src/app.tsx"), ("line", Json.num 3),
                ("issue", Json.str "i"), ("suggestion", Json.str "s")]]),
   ("positive_aspects", Json.arr [Json.str "good"]),
   ("areas_for_improvement", Json.arr [])]

/-- The structured review validated from `goodJson`. -/
def goodReview : AIReview :=
  { overall_score := 8, recommendation := "POSITIVE", summary := "Nice",
    detailed_findings :=
      [{ category := "QUALITY", severity := "LOW", file := "src/app.tsx",
         line := some 3, issue := "i", suggestion := "s" }],
    positive_aspects := ["good"], areas_for_improvement := [] }

/-- A `JSON.parse` oracle returning `goodJson` for every input. -/
def jpGood : String → Option Json := fun _ => some goodJson

/-- A parsed model response whose `overall_score` is the non-integral number
`7.5` and which otherwise satisfies the schema. -/
def halfScoreJson : Json := Json.obj
  [("overall_score", Json.num (mkRat 15 2)),
   ("recommendation", Json.str "POSITIVE"),
   ("summary", Json.str "ok"),
   ("detailed_findings", Json.arr []),
   ("positive_aspects", Json.arr []),
   ("areas_for_improvement", Json.arr [])]

/-- A `JSON.parse` oracle returning `halfScoreJson` for every input, as the
platform parser does on the text `\x7b"overall_score":7.5,...\x7d`. -/
def jpHalfScore : String → Option Json := fun _ => some halfScoreJson

/-! ### Helper lemmas -/

/-- A star token over the whole remaining pattern accepts exactly the
strings all of whose characters pass the star's character test. -/
theorem starLoop_nil_all (ok : Char → Bool) :
    ∀ s : List Char, starLoop (globMatch []) ok s = s.all ok := by
  intro s
  induction s with
  | nil => rfl
  | cons x xs ih =>
      show (globMatch [] (x :: xs) || (ok x && starLoop (globMatch []) ok xs)) = _
      rw [ih]
      simp [globMatch]

/-- The regex `^.*$` built from the pattern `*` accepts exactly the strings
with no line-terminator character. -/
theorem globMatch_starAny_all (s : List Char) :
    globMatch [GlobTok.starAny] s = s.all fun c => !isLineTerm c :=
  starLoop_nil_all _ s

/-- Prepending a block that does not contain the character shifts the first
index by the block's length. -/
theorem firstIdx_append {c : Char} {l2 : List Char} {k : Nat}
    (h2 : firstIdx c l2 = some k) :
    ∀ {l1 : List Char}, c ∉ l1 → firstIdx c (l1 ++ l2) = some (l1.length + k) := by
  intro l1
  induction l1 with
  | nil => simpa using h2
  | cons x xs ih =>
      intro hn
      have hx : ¬ x = c := fun h => hn (by simp [h])
      have hxs : c ∉ xs := fun h => hn (List.mem_cons_of_mem _ h)
      simp [firstIdx, hx, ih hxs]
      omega

/-- The first index of the character heading the list is zero. -/
theorem firstIdx_cons_self (c : Char) (xs : List Char) :
    firstIdx c (c :: xs) = some 0 := by
  simp [firstIdx]

/-- The score validator only accepts numbers within the schema bounds. -/
theorem parseScore_bounds {j : Json} {q : Rat} (h : parseScore j = some q) :
    1 ≤ q ∧ q ≤ 10 := by
  cases j <;> simp [parseScore] at h
  case num q' =>
    rcases h with ⟨⟨h1, h2⟩, rfl⟩
    exact ⟨h1, h2⟩

/-- The enum validator only accepts listed values. -/
theorem parseEnumStr_mem {vals : List String} {j : Json} {s : String}
    (h : parseEnumStr vals j = some s) : s ∈ vals := by
  cases j <;> simp [parseEnumStr] at h
  case str s' =>
    rcases h with ⟨h1, rfl⟩
    exact h1

/-- Any review accepted by the schema validator has its score within `[1,10]`
and its recommendation among the three enum values. -/
theorem validateAIReview_bounds {j : Json} {r : AIReview}
    (h : validateAIReview j = some r) :
    1 ≤ r.overall_score ∧ r.overall_score ≤ 10 ∧
      r.recommendation ∈ recommendationValues := by
  cases j <;> simp [validateAIReview, Option.bind_eq_some] at h
  case obj fields =>
    rcases h with ⟨q, ⟨jq, hjq, hq⟩, rest⟩
    rcases rest with ⟨rec, ⟨jr, hjr, hr⟩, rest⟩
    rcases rest with ⟨su, hsu, rest⟩
    rcases rest with ⟨fj, hfj, rest⟩
    rcases rest with ⟨fs, hfs, rest⟩
    rcases rest with ⟨pj, hpj, rest⟩
    rcases rest with ⟨ps, hps, rest⟩
    rcases rest with ⟨aj, haj, rest⟩
    rcases rest with ⟨as', has, hrec⟩
    obtain rfl := hrec.symm
    obtain ⟨h1, h2⟩ := parseScore_bounds hq
    exact ⟨h1, h2, parseEnumStr_mem hr⟩

/-- Extraction of a brace-delimited body embedded between prose carrying no
stray braces: the regex recovers exactly the body. -/
theorem extractBraced_embed (pre body post : String) (mid : List Char)
    (hpre : lbrace ∉ pre.data) (hpost : rbrace ∉ post.data)
    (hbody : body.data = lbrace :: (mid ++ [rbrace])) :
    extractBraced (pre ++ body ++ post) = some body := by
  have hdata : (pre ++ body ++ post).data = pre.data ++ (body.data ++ post.data) := by
    simp [String.data_append]
  have hfirst : firstIdx lbrace (pre ++ body ++ post).data = some pre.data.length := by
    rw [hdata]
    have h0 : firstIdx lbrace (body.data ++ post.data) = some 0 := by
      rw [hbody]; exact firstIdx_cons_self _ _
    simpa using firstIdx_append h0 hpre
  have hrev : (pre ++ body ++ post).data.reverse
      = post.data.reverse ++ (rbrace :: (mid.reverse ++ (lbrace :: pre.data.reverse))) := by
    rw [hdata, hbody]
    simp
  have hlastFirst : firstIdx rbrace (pre ++ body ++ post).data.reverse
      = some post.data.length := by
    rw [hrev]
    have h0 : firstIdx rbrace
        (rbrace :: (mid.reverse ++ (lbrace :: pre.data.reverse))) = some 0 :=
      firstIdx_cons_self _ _
    have hq : rbrace ∉ post.data.reverse := by
      simpa [List.mem_reverse] using hpost
    simpa using firstIdx_append h0 hq
  have hlen : (pre ++ body ++ post).data.length
      = pre.data.length + mid.length + 2 + post.data.length := by
    rw [hdata, hbody]
    simp
    omega
  have hlast : lastIdx rbrace (pre ++ body ++ post).data
      = some (pre.data.length + mid.length + 1) := by
    rw [lastIdx, hlastFirst, hlen]
    simp
    try omega
  have hdrop : (pre ++ body ++ post).data.drop pre.data.length
      = body.data ++ post.data := by
    rw [hdata]
    exact List.drop_left _ _
  have hblen : body.data.length = mid.length + 2 := by
    rw [hbody]; simp
  simp only [extractBraced, hfirst, hlast]
  rw [if_pos (by omega)]
  have harith : pre.data.length + mid.length + 1 - pre.data.length + 1
      = body.data.length := by
    rw [hblen]; omega
  rw [hdrop, harith, List.take_left]

/-- Unfolding lemma: one execution step of the graph runner. -/
theorem runFromFuel_succ (cfg : AgentCfg) (env : Env) (fuel : Nat)
    (n : Node) (s : AgentState) :
    runFromFuel cfg env (fuel + 1) n s =
      if n = Node.endNode then s
      else runFromFuel cfg env fuel
        (route n (runNode cfg env n s)) (runNode cfg env n s) := rfl

/-- Exhausted fuel returns the state unchanged. -/
theorem runFromFuel_zero (cfg : AgentCfg) (env : Env) (n : Node) (s : AgentState) :
    runFromFuel cfg env 0 n s = s := rfl

/-! ### Claims -/

/-- C1, counterexample: on a run whose file-relevance filter yields the
empty subset (docs-only PR, no configured patterns), the claim says
`issuesCount` is absent; the code computes it as
`aiReview?.detailed_findings.length ?? 0`, which is `0`, a present value. -/
theorem c1_counterexample :
    (reviewPullRequest cfgNoPatterns envReadmeOnly "o" "r" 1).issuesCount = some 0 ∧
    (reviewPullRequest cfgNoPatterns envReadmeOnly "o" "r" 1).issuesCount ≠ none := by
  decide

/-- C1, amended: for every run in which the fetch succeeds and the
file-relevance filter yields an empty subset, `reviewPullRequest` returns
success with no error, no recommendation, no score, no summary, and
`issuesCount` equal to `0` (present). -/
theorem c1_empty_filter_short_circuit (cfg : AgentCfg) (env : Env)
    (owner repo : String) (n : Nat) (pr : PullRequestData)
    (hf : env.fetch = Except.ok pr)
    (hempty : filterRelevant cfg pr.files = []) :
    reviewPullRequest cfg env owner repo n =
      { success := true, recommendation := none, score := none,
        issuesCount := some 0, summary := none, error := none } := by
  simp [reviewPullRequest, invokeGraph, runFromFuel, runNode, route,
        fetchPullRequestNode, filterRelevantFilesNode, initialState, hf, hempty]

/-- C1, witness: the amended statement at the concrete docs-only PR. -/
theorem c1_witness :
    reviewPullRequest cfgNoPatterns envReadmeOnly "o" "r" 1 =
      { success := true, recommendation := none, score := none,
        issuesCount := some 0, summary := none, error := none } :=
  c1_empty_filter_short_circuit cfgNoPatterns envReadmeOnly "o" "r" 1
    prReadmeOnly rfl (by decide)

/-- C2, counterexample: the claim requires the filter's matcher to reject
the pair `("*.ts", "a/b.ts")`; the matcher actually used by the filter
(`matchesPatterns`, which rewrites `*` to the segment-crossing `.*`)
accepts it. -/
theorem c2_counterexample : matchesPatterns "a/b.ts" ["*.ts"] = true := by decide

/-- C2, amended: in the matcher used by the file-relevance filter, `*`
matches any run of non-line-terminator characters including none and
including path separators (so `"*.ts"` matches both `"a.ts"` and
`"a/b.ts"`); `?` matches exactly one non-line-terminator character; the dot
is escaped to match literally; and the pattern must match the whole
filename, not a suffix.  The segment-limited `*` described by the spec is
implemented only by the unused helper in utils.ts, which does reject
`("*.ts", "a/b.ts")`. -/
theorem c2_matcher_semantics :
    matchesPatterns "a.ts" ["*.ts"] = true ∧
    matchesPatterns "a/b.ts" ["*.ts"] = true ∧
    matchesPatterns "a/b.ts" ["**/*.ts"] = true ∧
    (∀ s : List Char, globMatch [GlobTok.starAny] s = s.all fun c => !isLineTerm c) ∧
    (∀ c : Char, matchesPatterns (String.mk ['a', c, 'b']) ["a?b"] = !isLineTerm c) ∧
    matchesPatterns "ab" ["a?b"] = false ∧
    matchesPatterns "aXYb" ["a?b"] = false ∧
    matchesPatterns "xa.ts" ["a.ts"] = false ∧
    matchesPatterns "aXts" ["a.ts"] = false ∧
    utilsMatchesPattern "a.ts" "*.ts" = true ∧
    utilsMatchesPattern "a/b.ts" "*.ts" = false ∧
    utilsMatchesPattern "a/b.ts" "**/*.ts" = true := by
  refine ⟨by decide, by decide, by decide, globMatch_starAny_all, ?_,
          by decide, by decide, by decide, by decide, by decide, by decide, by decide⟩
  intro c
  cases h : isLineTerm c <;>
    simp [matchesPatterns, agentTokens, globMatch, h]

/-- C3: the parser extracts the substring from the first left brace to the
last right brace tolerating surrounding prose, returns the schema-validated
review on success, and on any failure (no brace pair, parse failure, or
schema violation) returns exactly the fixed fallback record; being a total
function of the response text, it never throws and never produces a run
error. -/
theorem c3_parser_contract (jp : String → Option Json) :
    (∀ (pre body post : String) (mid : List Char),
        lbrace ∉ pre.data → rbrace ∉ post.data →
        body.data = lbrace :: (mid ++ [rbrace]) →
        extractBraced (pre ++ body ++ post) = some body) ∧
    (∀ (pre body post : String) (mid : List Char) (j : Json) (r : AIReview),
        lbrace ∉ pre.data → rbrace ∉ post.data →
        body.data = lbrace :: (mid ++ [rbrace]) →
        jp body = some j → validateAIReview j = some r →
        parseAIResponse jp (pre ++ body ++ post) = r) ∧
    (∀ txt, extractBraced txt = none → parseAIResponse jp txt = fallbackReview) ∧
    (∀ txt sub, extractBraced txt = some sub → jp sub = none →
        parseAIResponse jp txt = fallbackReview) ∧
    (∀ txt sub j, extractBraced txt = some sub → jp sub = some j →
        validateAIReview j = none → parseAIResponse jp txt = fallbackReview) ∧
    fallbackReview =
      { overall_score := 5, recommendation := "NEEDS_CHANGES",
        summary := "The AI did not return valid JSON. Manual review required.",
        detailed_findings := [], positive_aspects := [],
        areas_for_improvement := ["Manual review required"] } := by
  refine ⟨extractBraced_embed, ?_, ?_, ?_, ?_, rfl⟩
  · intro pre body post mid j r h1 h2 h3 hj hv
    simp [parseAIResponse, extractBraced_embed pre body post mid h1 h2 h3, hj, hv]
  · intro txt h
    simp [parseAIResponse, h]
  · intro txt sub h hj
    simp [parseAIResponse, h, hj]
  · intro txt sub j h hj hv
    simp [parseAIResponse, h, hj, hv]

/-- C3, witness: prose around a valid JSON body yields the validated review;
a braceless response yields the fallback. -/
theorem c3_witness :
    parseAIResponse jpGood ("Sure! " ++ "\x7b\"score\":8\x7d" ++ " Done.") = goodReview ∧
    parseAIResponse jpGood "Sorry, I cannot process this." = fallbackReview := by
  constructor
  · exact (c3_parser_contract jpGood).2.1 "Sure! " "\x7b\"score\":8\x7d" " Done."
      "\"score\":8".data goodJson goodReview (by decide) (by decide) (by decide)
      rfl (by decide)
  · exact (c3_parser_contract jpGood).2.2.1 "Sorry, I cannot process this." (by decide)

/-- C4: `reviewPullRequest` is a total function of the terminal state (it
never propagates an exception); its success flag is false exactly when the
terminal state carries an error, its error field equals the terminal
state's, and on failure the recommendation, score and summary are absent. -/
theorem c4_result_wellformed (cfg : AgentCfg) (env : Env)
    (owner repo : String) (n : Nat) :
    ((reviewPullRequest cfg env owner repo n).success = false ↔
      (invokeGraph cfg env (initialState owner repo n)).error ≠ none) ∧
    (reviewPullRequest cfg env owner repo n).error
      = (invokeGraph cfg env (initialState owner repo n)).error ∧
    ((reviewPullRequest cfg env owner repo n).success = false →
      (reviewPullRequest cfg env owner repo n).recommendation = none ∧
      (reviewPullRequest cfg env owner repo n).score = none ∧
      (reviewPullRequest cfg env owner repo n).summary = none ∧
      (reviewPullRequest cfg env owner repo n).error ≠ none) := by
  cases h : (invokeGraph cfg env (initialState owner repo n)).error <;>
    simp [reviewPullRequest, h]

/-- C4, witness: at a run whose fetch throws, the failure branch of the
contract holds concretely. -/
theorem c4_witness :
    (reviewPullRequest cfgNoPatterns envFetchError "o" "r" 1).recommendation = none ∧
    (reviewPullRequest cfgNoPatterns envFetchError "o" "r" 1).error ≠ none := by
  have h := (c4_result_wellformed cfgNoPatterns envFetchError "o" "r" 1).2.2 (by decide)
  exact ⟨h.1, h.2.2.2⟩

/-- C5: the transition rule of the state machine — after each of the first
four stages an errored state routes to the error handler, a done state
routes to `END`, and otherwise the run advances to the next stage in the
fixed sequence; `postReview` and `handleError` route unconditionally to
`END`; the error handler only sets the done flag; execution from `END`
changes nothing and execution from the error handler only sets the done
flag, so once an error is set or the run is done no further stage mutates
the state; and among the first four stages only the filter's empty-subset
outcome can newly mark the run done. -/
theorem c5_transition_invariants (cfg : AgentCfg) (env : Env) (s : AgentState) :
    ((s.error ≠ none →
        route Node.fetchPR s = Node.handleError ∧
        route Node.filterFiles s = Node.handleError ∧
        route Node.analyzeCode s = Node.handleError ∧
        route Node.formatReview s = Node.handleError) ∧
     (s.error = none → s.completed = true →
        route Node.fetchPR s = Node.endNode ∧
        route Node.filterFiles s = Node.endNode ∧
        route Node.analyzeCode s = Node.endNode ∧
        route Node.formatReview s = Node.endNode) ∧
     (s.error = none → s.completed = false →
        route Node.fetchPR s = Node.filterFiles ∧
        route Node.filterFiles s = Node.analyzeCode ∧
        route Node.analyzeCode s = Node.formatReview ∧
        route Node.formatReview s = Node.postReview) ∧
     route Node.postReview s = Node.endNode ∧
     route Node.handleError s = Node.endNode) ∧
    runNode cfg env Node.handleError s = { s with completed := true } ∧
    (∀ fuel, runFromFuel cfg env fuel Node.endNode s = s) ∧
    (∀ fuel, runFromFuel cfg env (fuel + 1 + 1) Node.handleError s
        = { s with completed := true }) ∧
    (s.completed = false →
      (runNode cfg env Node.fetchPR s).completed = false ∧
      (runNode cfg env Node.analyzeCode s).completed = false ∧
      (runNode cfg env Node.formatReview s).completed = false) ∧
    ((runNode cfg env Node.filterFiles s).completed = true →
      s.completed = true ∨
        ∃ pr, s.prData = some pr ∧ filterRelevant cfg pr.files = []) := by
  refine ⟨⟨?_, ?_, ?_, rfl, rfl⟩, rfl, ?_, ?_, ?_, ?_⟩
  · intro h
    rcases Option.ne_none_iff_exists'.mp h with ⟨e, he⟩
    refine ⟨?_, ?_, ?_, ?_⟩ <;> simp [route, he]
  · intro h hc
    refine ⟨?_, ?_, ?_, ?_⟩ <;> simp [route, h, hc]
  · intro h hc
    refine ⟨?_, ?_, ?_, ?_⟩ <;> simp [route, h, hc]
  · intro fuel
    cases fuel with
    | zero => rfl
    | succ f => simp [runFromFuel_succ]
  · intro fuel
    rw [runFromFuel_succ]
    simp [runNode, handleErrorNode, route, runFromFuel_succ]
  · intro h
    refine ⟨?_, ?_, ?_⟩
    · cases hf : env.fetch <;> simp [runNode, fetchPullRequestNode, hf, h]
    · cases hrf : s.relevantFiles with
      | none => simp [runNode, analyzeCodeNode, hrf, h]
      | some fs =>
          cases hpd : s.prData with
          | none => simp [runNode, analyzeCodeNode, hrf, hpd, h]
          | some pr =>
              cases hl : env.llm <;>
                simp [runNode, analyzeCodeNode, hrf, hpd, hl, h]
    · cases ha : s.aiReview <;> simp [runNode, formatReviewNode, ha, h]
  · intro h
    cases hpd : s.prData with
    | none =>
        left
        simpa [runNode, filterRelevantFilesNode, hpd] using h
    | some pr =>
        by_cases hlen : (filterRelevant cfg pr.files).length = 0
        · right
          exact ⟨pr, rfl, List.length_eq_zero.mp hlen⟩
        · left
          simpa [runNode, filterRelevantFilesNode, hpd, hlen] using h

/-- C5, witness: the invariants instantiated at a state carrying an error. -/
theorem c5_witness :
    route Node.fetchPR { initialState "o" "r" 1 with error := some "x" }
      = Node.handleError ∧
    runFromFuel cfgNoPatterns envFetchError 5 Node.endNode
      { initialState "o" "r" 1 with error := some "x" }
      = { initialState "o" "r" 1 with error := some "x" } := by
  constructor
  · exact ((c5_transition_invariants cfgNoPatterns envFetchError
      { initialState "o" "r" 1 with error := some "x" }).1.1 (by decide)).1
  · exact (c5_transition_invariants cfgNoPatterns envFetchError
      { initialState "o" "r" 1 with error := some "x" }).2.2.1 5

/-- C6, counterexample: a schema-valid response with `overall_score` 7.5
passes the parser unchanged — the validated score is `15/2`, whose reduced
denominator is not `1`, i.e. not an integer, refuting the claim that the
parser enforces integrality. -/
theorem c6_counterexample :
    (parseAIResponse jpHalfScore "\x7b\x7d").overall_score = mkRat 15 2 ∧
    (parseAIResponse jpHalfScore "\x7b\x7d").overall_score.den ≠ 1 := by
  decide

/-- C6, amended: every review produced by the parser — validated or
fallback — has an `overall_score` that is a number (not necessarily an
integer) in `[1,10]` and a recommendation among the three enumerated
values; these bounds are enforced by the parser itself. -/
theorem c6_parser_bounds (jp : String → Option Json) (txt : String) :
    1 ≤ (parseAIResponse jp txt).overall_score ∧
    (parseAIResponse jp txt).overall_score ≤ 10 ∧
    (parseAIResponse jp txt).recommendation ∈ recommendationValues := by
  have hfb : 1 ≤ fallbackReview.overall_score ∧
      fallbackReview.overall_score ≤ 10 ∧
      fallbackReview.recommendation ∈ recommendationValues := by
    refine ⟨by decide, by decide, by decide⟩
  cases hE : extractBraced txt with
  | none => simpa [parseAIResponse, hE] using hfb
  | some sub =>
      cases hj : jp sub with
      | none => simpa [parseAIResponse, hE, hj] using hfb
      | some j =>
          cases hv : validateAIReview j with
          | none => simpa [parseAIResponse, hE, hj, hv] using hfb
          | some r =>
              simpa [parseAIResponse, hE, hj, hv] using validateAIReview_bounds hv

/-- C7: a renamed file passes the relevance filter unconditionally, even
against matching exclude patterns, while a file whose status is neither
added, modified nor renamed is dropped unconditionally. -/
theorem c7_renamed_kept (cfg : AgentCfg) (f : GitHubFile) :
    (f.status = "renamed" → keepFile cfg f = true) ∧
    (f.status ≠ "added" → f.status ≠ "modified" → f.status ≠ "renamed" →
      keepFile cfg f = false) := by
  constructor
  · intro h
    simp [keepFile, h]
  · intro h1 h2 h3
    simp [keepFile, h1, h2, h3]

/-- C7, witness: a renamed file matching an exclude pattern is kept; a
removed file is dropped. -/
theorem c7_witness :
    keepFile { cfgNoPatterns with excludePatterns := some ["*.ts"] }
      { filename := "x.ts", additions := 0, deletions := 0,
        patch := none, status := "renamed" } = true ∧
    keepFile cfgNoPatterns
      { filename := "x.ts", additions := 0, deletions := 0,
        patch := none, status := "removed" } = false := by
  constructor
  · exact (c7_renamed_kept _ _).1 rfl
  · exact (c7_renamed_kept _ _).2 (by decide) (by decide) (by decide)

/-- C8: for a change set containing a Vue single-file component and a JS/TS
package manifest whose patch declares the nuxt dependency, and triggering
none of the higher-priority rules (PHP manifest, CMS path, Python files) of
the fixed order, the detector returns `nuxt`, not `vue`: manifest-based
detection with meta-framework precedence beats extension-based detection. -/
theorem c8_meta_framework_priority (files : List GitHubFileLite)
    (_hvue : (files.any fun f => ".vue".data.isSuffixOf f.filename.data) = true)
    (hnuxt : (files.any fun f =>
        "package.json".data.isSuffixOf f.filename.data && patchContains f "\"nuxt\"") = true)
    (h1 : (files.any fun f =>
        f.filename.data = "composer.json".data && patchContains f "laravel/framework") = false)
    (h2 : (files.any fun f => isInfixChars "wp-content/".data f.filename.data) = false)
    (h3 : (files.any fun f =>
        "manage.py".data.isSuffixOf f.filename.data ||
          "settings.py".data.isSuffixOf f.filename.data) = false)
    (h4 : (files.any fun f =>
        ".py".data.isSuffixOf f.filename.data && patchContains f "flask") = false) :
    detectStack files = Stack.nuxt := by
  simp [detectStack, h1, h2, h3, h4, hnuxt]

/-- C8, witness: the concrete two-file change set (a Vue component plus a
package manifest declaring nuxt) resolves to `nuxt`. -/
theorem c8_witness :
    detectStack
      [{ filename := "src/App.vue", patch := none },
       { filename := "package.json", patch := some "+    \"nuxt\": \"^3.8.0\"" }]
      = Stack.nuxt :=
  c8_meta_framework_priority _ (by decide) (by decide) (by decide) (by decide)
    (by decide) (by decide)

/-- C9: the file-relevance filter is idempotent — filtering its own output
with the same configuration returns the same list in the same order. -/
theorem c9_filter_idempotent (cfg : AgentCfg) (files : List GitHubFile) :
    filterRelevant cfg (filterRelevant cfg files) = filterRelevant cfg files := by
  simp [filterRelevant, List.filter_filter]

/-- C10: with no include patterns configured and no exclude pattern
matching, an added or modified file is kept exactly when its filename ends
with one of the eleven default extensions; in particular `.yaml`, `.md`,
`.rb`, `.go`, `.css` and `.html` files are dropped while `.yml` and
`.blade.php` files are kept. -/
theorem c10_default_extension_allowlist (cfg : AgentCfg) (f : GitHubFile)
    (hstatus : f.status = "added" ∨ f.status = "modified")
    (hinc : cfg.filePatterns = none ∨ cfg.filePatterns = some [])
    (hexc : ∀ ex, cfg.excludePatterns = some ex →
        ex = [] ∨ matchesPatterns f.filename ex = false) :
    (keepFile cfg f =
      ([".js", ".jsx", ".ts", ".tsx", ".vue", ".svelte", ".php", ".blade.php",
        ".py", ".json", ".yml"].any fun ext => ext.data.isSuffixOf f.filename.data)) ∧
    shouldIncludeFile cfgNoPatterns "x.yaml" = false ∧
    shouldIncludeFile cfgNoPatterns "x.md" = false ∧
    shouldIncludeFile cfgNoPatterns "x.rb" = false ∧
    shouldIncludeFile cfgNoPatterns "x.go" = false ∧
    shouldIncludeFile cfgNoPatterns "x.css" = false ∧
    shouldIncludeFile cfgNoPatterns "x.html" = false ∧
    shouldIncludeFile cfgNoPatterns "x.yml" = true ∧
    shouldIncludeFile cfgNoPatterns "x.blade.php" = true := by
  refine ⟨?_, by decide, by decide, by decide, by decide, by decide,
          by decide, by decide, by decide⟩
  have hkeep : keepFile cfg f = shouldIncludeFile cfg f.filename := by
    rcases hstatus with h | h <;> simp [keepFile, h]
  rw [hkeep]
  have hexcond : (match cfg.excludePatterns with
      | some ex => 0 < ex.length && matchesPatterns f.filename ex
      | none => false) = false := by
    cases hE : cfg.excludePatterns with
    | none => rfl
    | some ex =>
        rcases hexc ex hE with h | h
        · simp [h]
        · simp [h]
  rcases hinc with h | h <;>
    simp [shouldIncludeFile, hexcond, h, defaultExtensionTest]

/-- C10, witness: the equation instantiated at the docs-only README file. -/
theorem c10_witness :
    keepFile cfgNoPatterns
      { filename := "README.md", additions := 1, deletions := 0,
        patch := some "p", status := "modified" } = false := by
  have h := (c10_default_extension_allowlist cfgNoPatterns
    { filename := "README.md", additions := 1, deletions := 0,
      patch := some "p", status := "modified" }
    (Or.inr rfl) (Or.inl rfl) (fun ex hex => Option.noConfusion hex)).1
  rw [h]
  decide

end CodeReviewAction
